import Mathlib

/-!
Shallow embedding of the portfolio valuation core of the cryptoflow-journal
repository: the position aggregation and valuation logic of
`src/lib/priceApi.ts` (`getCachedPrice`, `setCachedPrice`,
`calculatePortfolioPnL`) and the grand-total / manual-valuation / cash-flow
computations of `src/components/dashboard/InvestorDashboard.tsx`
(`GrandTotalPortfolio`).  JavaScript numbers are modelled as rationals,
`T | null` as `Option`, and the resolved result of an asynchronous price
fetch as an explicit price map `String → Option ℚ`.
-/

namespace CryptoFlow

/-- The `buy_sell` marker stored in a spot trade's detail map. -/
inductive Side where
  | buy
  | sell
deriving DecidableEq

/-- A spot trade row as consumed by `calculatePortfolioPnL`
(`{asset, price, quantity, fees?, details?: {buy_sell?}}`).
The two levels of optionality of `details?.buy_sell` collapse into one
`Option`, which preserves the observable value of `trade.details?.buy_sell`. -/
structure SpotTrade where
  asset : String
  price : ℚ
  quantity : ℚ
  fees : Option ℚ
  buy_sell : Option Side
deriving DecidableEq

/-- One accumulated per-asset position
(`{totalQuantity, totalCost, totalFees}`). -/
structure Position where
  totalQuantity : ℚ
  totalCost : ℚ
  totalFees : ℚ
deriving DecidableEq

/-- `const isBuy = !trade.details?.buy_sell || trade.details.buy_sell === 'buy'`:
true unless the detail map explicitly marks the trade a sell. -/
def isBuy (t : SpotTrade) : Bool :=
  match t.buy_sell with
  | some Side.sell => false
  | _ => true

/-- The zero accumulator installed when an asset key is first seen. -/
def emptyPosition : Position := ⟨0, 0, 0⟩

/-- The body of the accumulation loop of `calculatePortfolioPnL` for one
trade: signed quantity, cost `trade.price * Math.abs(trade.quantity)` signed
by side, and fees `trade.fees || 0` always added. -/
def applyTrade (p : Position) (t : SpotTrade) : Position :=
  let quantity := if isBuy t then t.quantity else -t.quantity
  let cost := t.price * |t.quantity|
  let fees := t.fees.getD 0
  { totalQuantity := p.totalQuantity + quantity
    totalCost := p.totalCost + (if isBuy t then cost else -cost)
    totalFees := p.totalFees + fees }

/-- The `positions` record, modelled as an association list in insertion
order (the enumeration order of `Object.entries` on string keys). -/
def upsertPosition : List (String × Position) → String → SpotTrade → List (String × Position)
  | [], k, t => [(k, applyTrade emptyPosition t)]
  | (k', p) :: rest, k, t =>
    if k' = k then (k', applyTrade p t) :: rest
    else (k', p) :: upsertPosition rest k t

/-- The position accumulation loop of `calculatePortfolioPnL`: every trade is
folded into the record under its upper-cased asset symbol. -/
def buildPositions (trades : List SpotTrade) : List (String × Position) :=
  trades.foldl (fun acc t => upsertPosition acc t.asset.toUpper t) []

/-- `Object.entries(positions).filter(([_, pos]) => pos.totalQuantity > 0)`. -/
def activePositions (trades : List SpotTrade) : List (String × Position) :=
  (buildPositions trades).filter (fun kp => decide (0 < kp.2.totalQuantity))

/-- Lookup of a key in the `positions` record. -/
def findPosition (a : String) : List (String × Position) → Option Position
  | [] => none
  | (k, p) :: rest => if k = a then some p else findPosition a rest

/-- One element of `assetBreakdown` in a `PortfolioSummary`. -/
structure AssetEntry where
  asset : String
  quantity : ℚ
  purchasePrice : ℚ
  currentPrice : Option ℚ
  currentValue : ℚ
  invested : ℚ
  unrealizedPnL : ℚ
  pnlPercentage : ℚ
deriving DecidableEq

/-- The `PortfolioSummary` returned by `calculatePortfolioPnL`. -/
structure PortfolioSummary where
  totalInvested : ℚ
  totalCurrentValue : ℚ
  totalUnrealizedPnL : ℚ
  totalPnLPercentage : ℚ
  assetBreakdown : List AssetEntry
deriving DecidableEq

/-- The per-position body of the `assetBreakdown` map of
`calculatePortfolioPnL`.  `currentPrice ? currentPrice * qty : 0` is a
JavaScript truthiness test, so both a missing price and a price of exactly 0
take the `: 0` branch. -/
def assetEntryOf (prices : String → Option ℚ) (kp : String × Position) : AssetEntry :=
  let currentPrice := prices kp.1
  let avgPurchasePrice := kp.2.totalCost / kp.2.totalQuantity
  let invested := kp.2.totalCost + kp.2.totalFees
  let currentValue :=
    match currentPrice with
    | some p => if p = 0 then 0 else p * kp.2.totalQuantity
    | none => 0
  let unrealizedPnL := currentValue - invested
  let pnlPercentage := if 0 < invested then unrealizedPnL / invested * 100 else 0
  { asset := kp.1
    quantity := kp.2.totalQuantity
    purchasePrice := avgPurchasePrice
    currentPrice := currentPrice
    currentValue := currentValue
    invested := invested
    unrealizedPnL := unrealizedPnL
    pnlPercentage := pnlPercentage }

/-- `calculatePortfolioPnL`, with the awaited result of
`fetchMultipleCryptoPrices` supplied as the resolved price map `prices`
(keyed by upper-cased symbol, `null` as `none`).  The TypeScript function
returns `PortfolioSummary | null`; its catch branch is unreachable in this
pure model, so the result is always `some`. -/
def calculatePortfolioPnL (spotTrades : List SpotTrade) (prices : String → Option ℚ) :
    Option PortfolioSummary :=
  let active := activePositions spotTrades
  if active.isEmpty then
    some { totalInvested := 0, totalCurrentValue := 0, totalUnrealizedPnL := 0,
           totalPnLPercentage := 0, assetBreakdown := [] }
  else
    let assetBreakdown := active.map (assetEntryOf prices)
    let totalInvested : ℚ := assetBreakdown.foldl (fun s e => s + e.invested) 0
    let totalCurrentValue : ℚ := assetBreakdown.foldl (fun s e => s + e.currentValue) 0
    let totalUnrealizedPnL := totalCurrentValue - totalInvested
    let totalPnLPercentage :=
      if 0 < totalInvested then totalUnrealizedPnL / totalInvested * 100 else 0
    some { totalInvested := totalInvested
           totalCurrentValue := totalCurrentValue
           totalUnrealizedPnL := totalUnrealizedPnL
           totalPnLPercentage := totalPnLPercentage
           assetBreakdown := assetBreakdown }

/-- The catch branch of `fetchMultipleCryptoPrices` when the whole batch
request fails: it resolves (it does not throw) to a record mapping every
requested symbol to `null`, so as a price map every lookup yields `none`. -/
def failedFetchResult : String → Option ℚ := fun _ => none

/-!  Price cache (`priceCache`, `getCachedPrice`, `setCachedPrice`).
The module-level mutable record is modelled as an explicit map from cache
keys to entries, and `Date.now()` as an explicit integer timestamp in
milliseconds. -/

/-- One entry of the `priceCache` record: `{price, timestamp}`. -/
structure CacheEntry where
  price : ℚ
  timestamp : ℤ
deriving DecidableEq

/-- `CACHE_DURATION = 1800000` milliseconds (30 minutes). -/
def CACHE_DURATION : ℤ := 1800000

/-- `getCachedPrice`: uppercase the key, return the cached price when the
entry exists and `now - cached.timestamp < CACHE_DURATION`, else `null`. -/
def getCachedPrice (cache : String → Option CacheEntry) (now : ℤ) (symbol : String) :
    Option ℚ :=
  let cacheKey := symbol.toUpper
  match cache cacheKey with
  | some cached => if now - cached.timestamp < CACHE_DURATION then some cached.price else none
  | none => none

/-- `setCachedPrice`: store `{price, timestamp: Date.now()}` under the
upper-cased key. -/
def setCachedPrice (cache : String → Option CacheEntry) (now : ℤ) (symbol : String)
    (price : ℚ) : String → Option CacheEntry :=
  fun k => if k = symbol.toUpper then some ⟨price, now⟩ else cache k

/-!  Dashboard side: `GrandTotalPortfolio` in `InvestorDashboard.tsx`. -/

/-- The `TradeCategory` union of `src/types/database.ts`. -/
inductive TradeCategory where
  | spot
  | futures
  | defi
  | dual_investment
  | liquidity_pool
  | liquidity_mining
deriving DecidableEq

/-- The fields of a `Trade` row used by `GrandTotalPortfolio`. -/
structure DashTrade where
  category : TradeCategory
  price : ℚ
  quantity : ℚ
  fees : Option ℚ
  profit_loss : Option ℚ
deriving DecidableEq

/-- The filter `!['spot', 'futures'].includes(trade.category)` selecting the
non-spot (manually valued) trades. -/
def isNonSpot (t : DashTrade) : Bool :=
  !(decide (t.category = TradeCategory.spot) || decide (t.category = TradeCategory.futures))

/-- `manualPnL`: sum of `trade.profit_loss || 0` over the non-spot trades. -/
def manualPnL (trades : List DashTrade) : ℚ :=
  (trades.filter isNonSpot).foldl (fun s t => s + t.profit_loss.getD 0) 0

/-- `nonSpotInvested`: sum of `(trade.price * trade.quantity) + (trade.fees || 0)`
over the non-spot trades. -/
def nonSpotInvested (trades : List DashTrade) : ℚ :=
  (trades.filter isNonSpot).foldl (fun s t => s + (t.price * t.quantity + t.fees.getD 0)) 0

/-- `nonSpotCurrentValue = nonSpotInvested + manualPnL`. -/
def nonSpotCurrentValue (trades : List DashTrade) : ℚ :=
  nonSpotInvested trades + manualPnL trades

/-- A cash-flow entry as used by the cashflow totals (`{type, amount}`). -/
inductive CashflowType where
  | deposit
  | withdrawal
deriving DecidableEq

/-- One cash-flow row. -/
structure Cashflow where
  type : CashflowType
  amount : ℚ
deriving DecidableEq

/-- The `cashflowData` memo (also the `totals` memo of `CashflowPage`). -/
structure CashflowTotals where
  totalDeposits : ℚ
  totalWithdrawals : ℚ
  netCashflow : ℚ
deriving DecidableEq

/-- `cashflowData`: deposits summed, withdrawals summed, net = difference. -/
def cashflowData (cashflows : List Cashflow) : CashflowTotals :=
  let totalDeposits : ℚ :=
    (cashflows.filter (fun cf => decide (cf.type = CashflowType.deposit))).foldl
      (fun s cf => s + cf.amount) 0
  let totalWithdrawals : ℚ :=
    (cashflows.filter (fun cf => decide (cf.type = CashflowType.withdrawal))).foldl
      (fun s cf => s + cf.amount) 0
  { totalDeposits := totalDeposits
    totalWithdrawals := totalWithdrawals
    netCashflow := totalDeposits - totalWithdrawals }

/-- The `grandTotalData` memo's result. -/
structure GrandTotal where
  grandTotalValue : ℚ
  totalInvested : ℚ
  totalCurrentValue : ℚ
  totalUnrealizedPnL : ℚ
  totalPnLPercentage : ℚ
  totalCash : ℚ
  spotValue : ℚ
  nonSpotValue : ℚ
deriving DecidableEq

/-- The `grandTotalData` memo of `GrandTotalPortfolio`: spot figures come
from `portfolioData?.x || 0`, the manual slice from the non-spot trades, and
cash from `cashflowData.netCashflow`. -/
def grandTotalData (portfolioData : Option PortfolioSummary) (trades : List DashTrade)
    (cd : CashflowTotals) : GrandTotal :=
  let spotCurrentValue := (portfolioData.map PortfolioSummary.totalCurrentValue).getD 0
  let spotInvested := (portfolioData.map PortfolioSummary.totalInvested).getD 0
  let spotUnrealizedPnL := (portfolioData.map PortfolioSummary.totalUnrealizedPnL).getD 0
  let totalInvested := spotInvested + nonSpotInvested trades
  let totalCurrentValue := spotCurrentValue + nonSpotCurrentValue trades
  let totalUnrealizedPnL := spotUnrealizedPnL + manualPnL trades
  let totalCash := cd.netCashflow
  let grandTotalValue := totalCurrentValue + totalCash
  let totalPnLPercentage :=
    if 0 < totalInvested then totalUnrealizedPnL / totalInvested * 100 else 0
  { grandTotalValue := grandTotalValue
    totalInvested := totalInvested
    totalCurrentValue := totalCurrentValue
    totalUnrealizedPnL := totalUnrealizedPnL
    totalPnLPercentage := totalPnLPercentage
    totalCash := totalCash
    spotValue := spotCurrentValue
    nonSpotValue := nonSpotCurrentValue trades }

/-!  Specification-side vocabulary used to state the claims. -/

/-- The signed quantity of one entry: `+quantity` for a buy, `-quantity`
for a sell. -/
def signedQuantity (t : SpotTrade) : ℚ :=
  if isBuy t then t.quantity else -t.quantity

/-- The signed cost of one entry as the specification words it:
`+price*quantity` for a buy, `-price*quantity` for a sell. -/
def specSignedCost (t : SpotTrade) : ℚ :=
  if isBuy t then t.price * t.quantity else -(t.price * t.quantity)

/-- The signed cost the code accumulates, with `Math.abs` on the quantity. -/
def codeSignedCost (t : SpotTrade) : ℚ :=
  if isBuy t then t.price * |t.quantity| else -(t.price * |t.quantity|)

/-- The fee contribution of one entry (`trade.fees || 0`). -/
def feeOf (t : SpotTrade) : ℚ := t.fees.getD 0

/-- The entries of the list whose upper-cased asset symbol is `a`. -/
def entriesFor (a : String) (trades : List SpotTrade) : List SpotTrade :=
  trades.filter (fun t => decide (t.asset.toUpper = a))

/-- Folding a list of trades into one position accumulator. -/
def applyList (p : Position) (ts : List SpotTrade) : Position :=
  ts.foldl applyTrade p

/-- The spec's investment categories:
defi / dual_investment / liquidity_pool / liquidity_mining. -/
def isInvestmentCategory (c : TradeCategory) : Prop :=
  c = TradeCategory.defi ∨ c = TradeCategory.dual_investment ∨
    c = TradeCategory.liquidity_pool ∨ c = TradeCategory.liquidity_mining

instance (c : TradeCategory) : Decidable (isInvestmentCategory c) := by
  unfold isInvestmentCategory; infer_instance

/-- Pointwise override of a price map at one key. -/
def overridePrice (prices : String → Option ℚ) (k : String) (v : Option ℚ) :
    String → Option ℚ :=
  fun s => if s = k then v else prices s

/-- Combining an already-accumulated optional position with a further run of
matching entries. -/
def combinePos (o : Option Position) (ts : List SpotTrade) : Option Position :=
  if ts.isEmpty then o else some (applyList (o.getD emptyPosition) ts)

/-!  General lemmas. -/

/-- A left fold that only adds `f` of each element is the sum of the mapped
list, shifted by the initial accumulator. -/
theorem foldl_add_eq_add_sum (f : α → ℚ) (l : List α) (c : ℚ) :
    l.foldl (fun s x => s + f x) c = c + (l.map f).sum := by
  induction l generalizing c with
  | nil => simp
  | cons x xs ih => simp [List.foldl_cons, ih, add_assoc]

attribute [ext] Position

theorem applyList_nil (p : Position) : applyList p [] = p := rfl

theorem applyList_cons (p : Position) (t : SpotTrade) (ts : List SpotTrade) :
    applyList p (t :: ts) = applyList (applyTrade p t) ts := rfl

theorem combinePos_some (q : Position) (l : List SpotTrade) :
    combinePos (some q) l = some (applyList q l) := by
  cases l <;> simp [combinePos, applyList]

theorem findPosition_upsert (l : List (String × Position)) (k : String) (t : SpotTrade)
    (a : String) :
    findPosition a (upsertPosition l k t) =
      if k = a then some (applyTrade ((findPosition a l).getD emptyPosition) t)
      else findPosition a l := by
  induction l with
  | nil => by_cases h : k = a <;> simp [upsertPosition, findPosition, h]
  | cons hd tl ih =>
    obtain ⟨k', p⟩ := hd
    simp only [upsertPosition]
    by_cases hk : k' = k
    · simp only [if_pos hk]
      by_cases ha : k' = a
      · have hka : k = a := (hk.symm).trans ha
        simp [findPosition, ha, hka]
      · have hka : ¬ k = a := fun h => ha (hk.trans h)
        simp [findPosition, ha, hka]
    · simp only [if_neg hk]
      by_cases ha : k' = a
      · have hka : ¬ k = a := fun h => hk (ha.trans h.symm)
        simp [findPosition, ha, hka]
      · simp [findPosition, ha, ih]

theorem entriesFor_cons (a : String) (t : SpotTrade) (ts : List SpotTrade) :
    entriesFor a (t :: ts) =
      if t.asset.toUpper = a then t :: entriesFor a ts else entriesFor a ts := by
  by_cases h : t.asset.toUpper = a <;> simp [entriesFor, h]

theorem findPosition_foldl (ts : List SpotTrade) (init : List (String × Position))
    (a : String) :
    findPosition a (ts.foldl (fun acc t => upsertPosition acc t.asset.toUpper t) init) =
      combinePos (findPosition a init) (entriesFor a ts) := by
  induction ts generalizing init with
  | nil => simp [entriesFor, combinePos]
  | cons t ts ih =>
    simp only [List.foldl_cons]
    rw [ih, findPosition_upsert, entriesFor_cons]
    by_cases h : t.asset.toUpper = a
    · simp only [if_pos h, combinePos_some]
      simp [combinePos, applyList]
    · simp only [if_neg h]

theorem applyTrade_totalQuantity (p : Position) (t : SpotTrade) :
    (applyTrade p t).totalQuantity = p.totalQuantity + signedQuantity t := rfl

theorem applyTrade_totalCost (p : Position) (t : SpotTrade) :
    (applyTrade p t).totalCost = p.totalCost + codeSignedCost t := by
  simp [applyTrade, codeSignedCost]

theorem applyTrade_totalFees (p : Position) (t : SpotTrade) :
    (applyTrade p t).totalFees = p.totalFees + feeOf t := rfl

theorem applyList_totalQuantity (p : Position) (ts : List SpotTrade) :
    (applyList p ts).totalQuantity = p.totalQuantity + (ts.map signedQuantity).sum := by
  induction ts generalizing p with
  | nil => simp [applyList]
  | cons t ts ih =>
    rw [applyList_cons, ih, applyTrade_totalQuantity]
    simp [add_assoc]

theorem applyList_totalCost (p : Position) (ts : List SpotTrade) :
    (applyList p ts).totalCost = p.totalCost + (ts.map codeSignedCost).sum := by
  induction ts generalizing p with
  | nil => simp [applyList]
  | cons t ts ih =>
    rw [applyList_cons, ih, applyTrade_totalCost]
    simp [add_assoc]

theorem applyList_totalFees (p : Position) (ts : List SpotTrade) :
    (applyList p ts).totalFees = p.totalFees + (ts.map feeOf).sum := by
  induction ts generalizing p with
  | nil => simp [applyList]
  | cons t ts ih =>
    rw [applyList_cons, ih, applyTrade_totalFees]
    simp [add_assoc]

theorem mem_entriesFor {a : String} {t : SpotTrade} {trades : List SpotTrade}
    (h : t ∈ entriesFor a trades) : t ∈ trades :=
  (List.mem_filter.mp h).1

/-!  Concrete inputs used by witnesses and scenarios. -/

/-- The spec's scenario entry `{asset:"BTC", side:buy, price:40000, qty:0.1, fees:10}`. -/
def btcScenarioTrade : SpotTrade :=
  { asset := "BTC", price := 40000, quantity := 1/10, fees := some 10,
    buy_sell := some Side.buy }

/-- A price map carrying the spec scenario's current BTC price of 45000. -/
def btcPriceMap : String → Option ℚ :=
  fun s => if s = "BTC" then some 45000 else none

/-- A lower-cased buy entry for the BTC position. -/
def mixedBuy : SpotTrade :=
  { asset := "btc", price := 10, quantity := 2, fees := some 1, buy_sell := some Side.buy }

/-- A sell entry for the BTC position. -/
def mixedSell : SpotTrade :=
  { asset := "BTC", price := 12, quantity := 1, fees := some 2, buy_sell := some Side.sell }

/-- The spec's scenario investment entry
`{category: defi, price:1000, qty:1, fees:0, profit_loss:150}`. -/
def defiEntry : DashTrade :=
  { category := TradeCategory.defi, price := 1000, quantity := 1, fees := some 0,
    profit_loss := some 150 }

/-!  Claim theorems. -/

/-- Claim C3: for every list of spot ledger entries (whose quantities are
nonnegative, per the data model's `quantity > 0` invariant), the Position
Aggregator groups entries by upper-cased asset symbol and accumulates, per
asset, the signed quantity (+quantity for a buy, -quantity for a sell), the
signed cost (+price*quantity for a buy, -price*quantity for a sell), and the
fees always added regardless of side; it is a pure function of the input
list, characterized completely by this equation. -/
theorem position_aggregator_characterization (trades : List SpotTrade)
    (hq : ∀ t ∈ trades, 0 ≤ t.quantity) (a : String) :
    findPosition a (buildPositions trades) =
      if (entriesFor a trades).isEmpty then none
      else
        some { totalQuantity := ((entriesFor a trades).map signedQuantity).sum
               totalCost := ((entriesFor a trades).map specSignedCost).sum
               totalFees := ((entriesFor a trades).map feeOf).sum } := by
  have h := findPosition_foldl trades [] a
  have hinit : findPosition a ([] : List (String × Position)) = none := rfl
  rw [hinit] at h
  rw [buildPositions, h]
  by_cases he : (entriesFor a trades).isEmpty
  · simp [combinePos, he]
  · simp only [combinePos, if_neg he, Option.getD_none]
    congr 1
    ext
    · rw [applyList_totalQuantity]; simp [emptyPosition]
    · rw [applyList_totalCost]
      simp only [emptyPosition, zero_add]
      refine congrArg List.sum (List.map_congr_left ?_)
      intro t ht
      have htq : 0 ≤ t.quantity := hq t (mem_entriesFor ht)
      simp [codeSignedCost, specSignedCost, abs_of_nonneg htq]
    · rw [applyList_totalFees]; simp [emptyPosition]

/-- Witness for C3 at a two-entry ledger: a lower-cased buy of 2 BTC at 10
with fee 1 and a sell of 1 BTC at 12 with fee 2 accumulate under the key
"BTC" to net quantity 1, signed cost 8 and fees 3. -/
theorem position_aggregator_characterization_witness :
    (∀ t ∈ [mixedBuy, mixedSell], 0 ≤ t.quantity) ∧
    findPosition "BTC" (buildPositions [mixedBuy, mixedSell]) =
      (if (entriesFor "BTC" [mixedBuy, mixedSell]).isEmpty then none
       else
         some { totalQuantity := ((entriesFor "BTC" [mixedBuy, mixedSell]).map signedQuantity).sum
                totalCost := ((entriesFor "BTC" [mixedBuy, mixedSell]).map specSignedCost).sum
                totalFees := ((entriesFor "BTC" [mixedBuy, mixedSell]).map feeOf).sum }) := by
  have hq : ∀ t ∈ [mixedBuy, mixedSell], 0 ≤ t.quantity := by
    intro t ht
    rcases List.mem_cons.mp ht with h | h
    · subst h; norm_num [mixedBuy]
    · rw [List.mem_singleton.mp h]; norm_num [mixedSell]
  exact ⟨hq, position_aggregator_characterization [mixedBuy, mixedSell] hq "BTC"⟩

/-- Claim C4: the active positions that enter valuation never contain an
asset whose net quantity is less than or equal to 0. -/
theorem active_positions_quantity_pos (trades : List SpotTrade) (kp : String × Position)
    (h : kp ∈ activePositions trades) : 0 < kp.2.totalQuantity := by
  rw [activePositions] at h
  exact of_decide_eq_true (List.mem_filter.mp h).2

/-- Witness for C4: the BTC position built from the scenario entry is active
and its net quantity is positive. -/
theorem active_positions_quantity_pos_witness :
    ("BTC", (⟨1/10, 4000, 10⟩ : Position)) ∈ activePositions [btcScenarioTrade] ∧
    (0 : ℚ) < (("BTC", (⟨1/10, 4000, 10⟩ : Position)) : String × Position).2.totalQuantity := by
  have he : activePositions [btcScenarioTrade] = [("BTC", ⟨1/10, 4000, 10⟩)] := by
    with_unfolding_all rfl
  have hm : ("BTC", (⟨1/10, 4000, 10⟩ : Position)) ∈ activePositions [btcScenarioTrade] := by
    rw [he]; exact List.mem_singleton.mpr rfl
  exact ⟨hm, active_positions_quantity_pos [btcScenarioTrade] _ hm⟩

/-- Claim C8: putting a price into the cache and getting the same key before
the 30-minute TTL has elapsed returns it, and getting it once the elapsed
time reaches or exceeds the TTL returns a miss. -/
theorem cache_roundtrip (cache : String → Option CacheEntry) (t₁ t₂ : ℤ) (k : String)
    (v : ℚ) :
    (t₂ - t₁ < CACHE_DURATION →
      getCachedPrice (setCachedPrice cache t₁ k v) t₂ k = some v) ∧
    (CACHE_DURATION ≤ t₂ - t₁ →
      getCachedPrice (setCachedPrice cache t₁ k v) t₂ k = none) := by
  constructor
  · intro h; simp [getCachedPrice, setCachedPrice, h]
  · intro h; simp [getCachedPrice, setCachedPrice, not_lt.mpr h]

/-- Witness for C8: a put at time 0 is hit at time 100 and missed at time
1800000 (exactly the TTL). -/
theorem cache_roundtrip_witness :
    getCachedPrice (setCachedPrice (fun _ => none) 0 "btc" 5) 100 "btc" = some 5 ∧
    getCachedPrice (setCachedPrice (fun _ => none) 0 "btc" 5) 1800000 "btc" = none :=
  ⟨(cache_roundtrip (fun _ => none) 0 100 "btc" 5).1 (by norm_num [CACHE_DURATION]),
   (cache_roundtrip (fun _ => none) 0 1800000 "btc" 5).2 (by norm_num [CACHE_DURATION])⟩

/-- Claim C9: net cash is the sum of deposit amounts minus the sum of
withdrawal amounts, and the scenario `[{deposit, 1000}, {withdrawal, 300}]`
yields net cash 700. -/
theorem cashflow_summarizer (cashflows : List Cashflow) :
    (cashflowData cashflows).netCashflow =
      ((cashflows.filter fun cf => decide (cf.type = CashflowType.deposit)).map
        Cashflow.amount).sum -
      ((cashflows.filter fun cf => decide (cf.type = CashflowType.withdrawal)).map
        Cashflow.amount).sum ∧
    (cashflowData [⟨CashflowType.deposit, 1000⟩, ⟨CashflowType.withdrawal, 300⟩]).netCashflow
      = 700 := by
  constructor
  · simp [cashflowData, foldl_add_eq_add_sum]
  · with_unfolding_all rfl

/-- Claim C10 counterexample: a present zero price is not indistinguishable
in the output from a missing price — on the scenario's BTC position the two
breakdown entries differ, because the currentPrice field passes the raw
fetched value through: 0 for a present zero price, null for a missing
one. -/
theorem zero_price_output_distinguishable :
    (assetEntryOf (fun _ => some 0) ("BTC", ⟨1/10, 4000, 10⟩)).currentPrice = some 0 ∧
    (assetEntryOf failedFetchResult ("BTC", ⟨1/10, 4000, 10⟩)).currentPrice = none ∧
    assetEntryOf (fun _ => some 0) ("BTC", ⟨1/10, 4000, 10⟩) ≠
      assetEntryOf failedFetchResult ("BTC", ⟨1/10, 4000, 10⟩) := by
  refine ⟨rfl, rfl, ?_⟩
  intro h
  have hc := congrArg AssetEntry.currentPrice h
  simp [assetEntryOf, failedFetchResult] at hc

/-- Claim C10 (amended): when the fetched price for an asset is exactly 0,
the valuation treats the position like an unavailable price in every
valuation field: the current value is 0, the unrealized PnL is minus the
invested amount, and currentValue, invested, unrealizedPnL and
pnlPercentage all coincide with the missing-price computation — though the
reported currentPrice field still records 0 versus null, so the full
breakdown entries remain distinguishable. -/
theorem zero_price_like_unavailable (prices : String → Option ℚ) (kp : String × Position) :
    (assetEntryOf (overridePrice prices kp.1 (some 0)) kp).currentValue = 0 ∧
    (assetEntryOf (overridePrice prices kp.1 (some 0)) kp).unrealizedPnL =
      -(assetEntryOf (overridePrice prices kp.1 (some 0)) kp).invested ∧
    (assetEntryOf (overridePrice prices kp.1 (some 0)) kp).currentValue =
      (assetEntryOf (overridePrice prices kp.1 none) kp).currentValue ∧
    (assetEntryOf (overridePrice prices kp.1 (some 0)) kp).invested =
      (assetEntryOf (overridePrice prices kp.1 none) kp).invested ∧
    (assetEntryOf (overridePrice prices kp.1 (some 0)) kp).unrealizedPnL =
      (assetEntryOf (overridePrice prices kp.1 none) kp).unrealizedPnL ∧
    (assetEntryOf (overridePrice prices kp.1 (some 0)) kp).pnlPercentage =
      (assetEntryOf (overridePrice prices kp.1 none) kp).pnlPercentage := by
  simp [assetEntryOf, overridePrice]

/-- Claim C1 counterexample: at a spot valuation with totalInvested -100 and
totalUnrealizedPnL 50 (reachable, since a partial sell above cost drives the
accumulated cost negative while net quantity stays positive), the composer
returns pnlPercentage 0 although totalInvested is nonzero and the claimed
formula totalUnrealizedPnL / totalInvested * 100 is nonzero. -/
theorem grand_total_pct_guard_counterexample :
    (grandTotalData (some ⟨-100, 0, 50, 0, []⟩) [] ⟨0, 0, 0⟩).totalInvested = -100 ∧
    (grandTotalData (some ⟨-100, 0, 50, 0, []⟩) [] ⟨0, 0, 0⟩).totalUnrealizedPnL = 50 ∧
    (grandTotalData (some ⟨-100, 0, 50, 0, []⟩) [] ⟨0, 0, 0⟩).totalPnLPercentage = 0 ∧
    (50 : ℚ) / (-100) * 100 ≠ 0 :=
  ⟨by with_unfolding_all rfl, by with_unfolding_all rfl, by with_unfolding_all rfl,
   by norm_num⟩

/-- Claim C1 (amended): the Grand-Total Composer returns
totalInvested = spot invested + manual invested,
totalCurrentValue = spot current value + (manual invested + manual pnl),
totalUnrealizedPnL = spot unrealized PnL + manual pnl,
grandTotal = totalCurrentValue + netCash, and
pnlPercentage = totalUnrealizedPnL / totalInvested * 100 when totalInvested
is strictly positive, and 0 when totalInvested ≤ 0 (in particular when it
is 0). -/
theorem grand_total_composer (pd : PortfolioSummary) (trades : List DashTrade)
    (cd : CashflowTotals) :
    (grandTotalData (some pd) trades cd).totalInvested =
      pd.totalInvested + nonSpotInvested trades ∧
    (grandTotalData (some pd) trades cd).totalCurrentValue =
      pd.totalCurrentValue + (nonSpotInvested trades + manualPnL trades) ∧
    (grandTotalData (some pd) trades cd).totalUnrealizedPnL =
      pd.totalUnrealizedPnL + manualPnL trades ∧
    (grandTotalData (some pd) trades cd).grandTotalValue =
      (grandTotalData (some pd) trades cd).totalCurrentValue + cd.netCashflow ∧
    (grandTotalData (some pd) trades cd).totalPnLPercentage =
      (if 0 < (grandTotalData (some pd) trades cd).totalInvested then
        (grandTotalData (some pd) trades cd).totalUnrealizedPnL /
          (grandTotalData (some pd) trades cd).totalInvested * 100
      else 0) := by
  refine ⟨rfl, ?_, rfl, rfl, rfl⟩
  simp [grandTotalData, nonSpotCurrentValue]

/-- Claim C2: evaluation of the code at the failing input. When every
outbound price request errors, `fetchMultipleCryptoPrices` resolves to an
all-null map instead of rethrowing, and `calculatePortfolioPnL` then returns
a summary (not an error) in which the only asset has currentValue 0 — a
fabricated zero-value portfolio. -/
theorem batch_failure_fabricates_zero_portfolio :
    calculatePortfolioPnL [btcScenarioTrade] failedFetchResult =
      some { totalInvested := 4010, totalCurrentValue := 0, totalUnrealizedPnL := -4010,
             totalPnLPercentage := -100,
             assetBreakdown := [{ asset := "BTC", quantity := 1/10, purchasePrice := 40000,
                                  currentPrice := none, currentValue := 0, invested := 4010,
                                  unrealizedPnL := -4010, pnlPercentage := -100 }] } := by
  with_unfolding_all rfl

/-- Claim C6 counterexample: on the scenario entry with current BTC price
45000 the valuator returns unrealized PnL 490, not the claimed 489.9. -/
theorem btc_scenario_pnl_counterexample :
    (calculatePortfolioPnL [btcScenarioTrade] btcPriceMap).map
      PortfolioSummary.totalUnrealizedPnL = some 490 ∧
    (490 : ℚ) ≠ 4899 / 10 :=
  ⟨by with_unfolding_all rfl, by norm_num⟩

/-- Claim C6 (amended): for the single entry
`{asset:"BTC", side:buy, price:40000, qty:0.1, fees:10}` with current BTC
price 45000, the valuator returns invested 4010, currentValue 4500 and
unrealizedPnL 490 (a PnL percentage of 4900/401 ≈ +12.22%). -/
theorem btc_scenario_valuation :
    calculatePortfolioPnL [btcScenarioTrade] btcPriceMap =
      some { totalInvested := 4010, totalCurrentValue := 4500, totalUnrealizedPnL := 490,
             totalPnLPercentage := 4900 / 401,
             assetBreakdown := [{ asset := "BTC", quantity := 1/10, purchasePrice := 40000,
                                  currentPrice := some 45000, currentValue := 4500,
                                  invested := 4010, unrealizedPnL := 490,
                                  pnlPercentage := 4900 / 401 }] } := by
  with_unfolding_all rfl

/-- The dashboard's non-spot filter `!['spot','futures'].includes(category)`
selects exactly the spec's investment categories. -/
theorem isNonSpot_eq_investment (t : DashTrade) :
    isNonSpot t = decide (isInvestmentCategory t.category) := by
  obtain ⟨c, _, _, _, _⟩ := t
  cases c <;> rfl

/-- Claim C7: the Manual-Valuation Aggregator returns pnl equal to the sum
of profit_loss (null read as 0) over the entries of the investment
categories, and invested equal to the sum of price*quantity + fees over the
same entries; the one-entry defi scenario yields invested 1000, pnl 150 and
current value 1150. -/
theorem manual_valuation_aggregator (trades : List DashTrade) :
    manualPnL trades =
      ((trades.filter fun t => decide (isInvestmentCategory t.category)).map
        (fun t => t.profit_loss.getD 0)).sum ∧
    nonSpotInvested trades =
      ((trades.filter fun t => decide (isInvestmentCategory t.category)).map
        (fun t => t.price * t.quantity + t.fees.getD 0)).sum ∧
    manualPnL [defiEntry] = 150 ∧ nonSpotInvested [defiEntry] = 1000 ∧
    nonSpotCurrentValue [defiEntry] = 1150 := by
  have hfilter : trades.filter isNonSpot =
      trades.filter fun t => decide (isInvestmentCategory t.category) :=
    List.filter_congr fun t _ => isNonSpot_eq_investment t
  refine ⟨?_, ?_, ?_, ?_, ?_⟩
  · rw [manualPnL, hfilter, foldl_add_eq_add_sum]; rw [zero_add]
  · rw [nonSpotInvested, hfilter, foldl_add_eq_add_sum]; rw [zero_add]
  · with_unfolding_all rfl
  · with_unfolding_all rfl
  · with_unfolding_all rfl

/-- Claim C5: an active position whose price lookup returns null is
rendered with currentValue 0 and a null currentPrice (the unavailable
marker), so it contributes nothing to the aggregated current value, while
its invested amount (cost basis plus fees) still enters the aggregated
totalInvested, both aggregates being the sums over the per-asset
breakdown. -/
theorem unavailable_price_handling (trades : List SpotTrade)
    (prices : String → Option ℚ) (a : String) (p : Position) (s : PortfolioSummary)
    (hs : calculatePortfolioPnL trades prices = some s)
    (hmem : (a, p) ∈ activePositions trades)
    (hp : prices a = none) :
    assetEntryOf prices (a, p) ∈ s.assetBreakdown ∧
    (assetEntryOf prices (a, p)).currentPrice = none ∧
    (assetEntryOf prices (a, p)).currentValue = 0 ∧
    (assetEntryOf prices (a, p)).invested = p.totalCost + p.totalFees ∧
    s.totalInvested = (s.assetBreakdown.map AssetEntry.invested).sum ∧
    s.totalCurrentValue = (s.assetBreakdown.map AssetEntry.currentValue).sum := by
  have hne : (activePositions trades).isEmpty = false :=
    List.isEmpty_eq_false.mpr (List.ne_nil_of_mem hmem)
  simp only [calculatePortfolioPnL, hne, Bool.false_eq_true, if_false,
    Option.some.injEq] at hs
  subst hs
  refine ⟨List.mem_map_of_mem _ hmem, ?_, ?_, ?_, ?_, ?_⟩
  · simp [assetEntryOf, hp]
  · simp [assetEntryOf, hp]
  · simp [assetEntryOf]
  · simp [foldl_add_eq_add_sum]
  · simp [foldl_add_eq_add_sum]

/-- Witness for C5 at the scenario entry with an all-null price map. -/
theorem unavailable_price_handling_witness :
    calculatePortfolioPnL [btcScenarioTrade] failedFetchResult =
      some { totalInvested := 4010, totalCurrentValue := 0, totalUnrealizedPnL := -4010,
             totalPnLPercentage := -100,
             assetBreakdown := [{ asset := "BTC", quantity := 1/10, purchasePrice := 40000,
                                  currentPrice := none, currentValue := 0, invested := 4010,
                                  unrealizedPnL := -4010, pnlPercentage := -100 }] } ∧
    ("BTC", (⟨1/10, 4000, 10⟩ : Position)) ∈ activePositions [btcScenarioTrade] ∧
    failedFetchResult "BTC" = none ∧
    (assetEntryOf failedFetchResult ("BTC", ⟨1/10, 4000, 10⟩) ∈
      (PortfolioSummary.mk 4010 0 (-4010) (-100)
        [{ asset := "BTC", quantity := 1/10, purchasePrice := 40000,
           currentPrice := none, currentValue := 0, invested := 4010,
           unrealizedPnL := -4010, pnlPercentage := -100 }]).assetBreakdown ∧
     (assetEntryOf failedFetchResult ("BTC", ⟨1/10, 4000, 10⟩)).currentPrice = none ∧
     (assetEntryOf failedFetchResult ("BTC", ⟨1/10, 4000, 10⟩)).currentValue = 0 ∧
     (assetEntryOf failedFetchResult ("BTC", ⟨1/10, 4000, 10⟩)).invested =
       (⟨1/10, 4000, 10⟩ : Position).totalCost + (⟨1/10, 4000, 10⟩ : Position).totalFees ∧
     (PortfolioSummary.mk 4010 0 (-4010) (-100)
        [{ asset := "BTC", quantity := 1/10, purchasePrice := 40000,
           currentPrice := none, currentValue := 0, invested := 4010,
           unrealizedPnL := -4010, pnlPercentage := -100 }]).totalInvested =
       ((PortfolioSummary.mk 4010 0 (-4010) (-100)
        [{ asset := "BTC", quantity := 1/10, purchasePrice := 40000,
           currentPrice := none, currentValue := 0, invested := 4010,
           unrealizedPnL := -4010, pnlPercentage := -100 }]).assetBreakdown.map
          AssetEntry.invested).sum ∧
     (PortfolioSummary.mk 4010 0 (-4010) (-100)
        [{ asset := "BTC", quantity := 1/10, purchasePrice := 40000,
           currentPrice := none, currentValue := 0, invested := 4010,
           unrealizedPnL := -4010, pnlPercentage := -100 }]).totalCurrentValue =
       ((PortfolioSummary.mk 4010 0 (-4010) (-100)
        [{ asset := "BTC", quantity := 1/10, purchasePrice := 40000,
           currentPrice := none, currentValue := 0, invested := 4010,
           unrealizedPnL := -4010, pnlPercentage := -100 }]).assetBreakdown.map
          AssetEntry.currentValue).sum) := by
  have hs : calculatePortfolioPnL [btcScenarioTrade] failedFetchResult =
      some { totalInvested := 4010, totalCurrentValue := 0, totalUnrealizedPnL := -4010,
             totalPnLPercentage := -100,
             assetBreakdown := [{ asset := "BTC", quantity := 1/10, purchasePrice := 40000,
                                  currentPrice := none, currentValue := 0, invested := 4010,
                                  unrealizedPnL := -4010, pnlPercentage := -100 }] } := by
    with_unfolding_all rfl
  have hmem : ("BTC", (⟨1/10, 4000, 10⟩ : Position)) ∈ activePositions [btcScenarioTrade] := by
    have he : activePositions [btcScenarioTrade] = [("BTC", ⟨1/10, 4000, 10⟩)] := by
      with_unfolding_all rfl
    rw [he]; exact List.mem_singleton.mpr rfl
  exact ⟨hs, hmem, rfl,
    unavailable_price_handling [btcScenarioTrade] failedFetchResult "BTC" _ _ hs hmem rfl⟩

end CryptoFlow
